import Mathlib

/-!
Verification of the time-series assembly pipeline of `get_landsat.py`
(function `get_time_series`).

The pipeline is shallowly embedded: the filesystem is a map from paths to
raster contents, every external call is recorded as an event, and the
collaborator modules (`search_landsat`, `download_landsat`, `registration`,
`midway`, `utils`) — which are not part of the core source file — are
modelled as oracle functions bundled in a `Collab` structure, constrained
only by their interface contracts.
-/

/-- A filesystem path, as a list of components (directories then filename). -/
abbrev FPath : Type := List String

/-- A georeferenced raster file: center coordinates, footprint in ground
meters, and sample data. -/
structure Raster where
  lat : Int
  lon : Int
  width : Nat
  height : Nat
  samples : List Nat
deriving DecidableEq, Repr

/-- Models `tifffile.imread(x).any()`: true iff some sample is non-zero. -/
def Raster.hasNonzero (r : Raster) : Bool :=
  r.samples.any (fun s => s != 0)

/-- The filesystem: a partial map from paths to raster contents. -/
def FS : Type := FPath → Option Raster

/-- The empty filesystem. -/
def fsEmpty : FS := fun _ => none

/-- Write a file (models creating or overwriting a file at a path). -/
def FS.write (fs : FS) (p : FPath) (r : Raster) : FS :=
  fun q => if q = p then some r else fs q

/-- Delete a file (models `os.remove`). -/
def FS.erase (fs : FS) (p : FPath) : FS :=
  fun q => if q = p then none else fs q

/-- Read a file, defaulting to an empty raster when absent. -/
def FS.readD (fs : FS) (p : FPath) : Raster :=
  (fs p).getD ⟨0, 0, 0, 0, []⟩

/-- A scene identifier returned by discovery. -/
abbrev Scene : Type := Nat

/-- A spectral band label. -/
abbrev Band : Type := String

/-- `all_bands = [str(i) for i in xrange(1, 12)]` from the source. -/
def all_bands : List Band :=
  ((List.range 11).map (fun i => toString (i + 1)))

/-- Externally observable pipeline events, in chronological order. -/
inductive Event where
  | acquireCall (img : Scene) (bands : List Band) (lon lat : Int)
      (w h : Nat) (outDir : FPath)
  | removeFile (p : FPath)
  | mkdirCall (d : FPath)
  | copyFile (src dst : FPath)
  | cropCall (dst src : FPath) (lon lat : Int) (w h : Nat)
  | registerCall (sa sb : List (List FPath)) (allPairwise : Bool)
  | midwayCall (group : List FPath) (outDir : FPath)
deriving DecidableEq, Repr

/-- The collaborator modules, as oracles.  `listImages` is the scene list
returned by `search_landsat.list_images` for the query at hand; `acquire`
returns the per-band files written by
`download_landsat.get_crops_from_kayrros_api`; `registerFn` and `midwayFn`
give the new contents that `registration.main` and `midway.main` write, in
place, at the paths they are handed; `cropFn` gives the sample data of the
sub-raster extracted by `utils.crop_georeferenced_image`. -/
structure Collab where
  listImages : List Scene
  acquire : Scene → List Band → Int → Int → Nat → Nat → FPath →
      List (FPath × Raster)
  registerFn : List (List Raster) → List (List Raster)
  midwayFn : List Raster → List Raster
  cropFn : Raster → Int → Int → Nat → Nat → List Nat

/-- Modelled from the spec: `utils.crop_georeferenced_image` is not under
`src/`; per the trim contract, `trim(dest, src, lon, lat, w, h)` rewrites
`dest` as the sub-raster of `src` covering exactly the given ground
footprint centered at (lat, lon).  Its sample data comes from the `cropFn`
oracle. -/
def cropGeorefImage (c : Collab) (src : Raster) (lon lat : Int)
    (w h : Nat) : Raster :=
  ⟨lat, lon, w, h, c.cropFn src lon lat w h⟩

/-- Arguments of `get_time_series` (the date bounds are folded into the
`listImages` oracle, which already denotes the discovery result for the
query). -/
structure Args where
  lat : Int
  lon : Int
  bands : List Band
  w : Nat
  h : Nat
  register : Bool
  equalize : Bool
  outDir : FPath
  debug : Bool

/-- Write a batch of (path, content) pairs, in order. -/
def writePairs (fs : FS) (l : List (FPath × Raster)) : FS :=
  l.foldl (fun f pr => f.write pr.1 pr.2) fs

/-- Write contents positionally at a list of paths (in-place rewrite of a
band group by `midway.main`). -/
def writeGroup (fs : FS) (ps : List FPath) (rs : List Raster) : FS :=
  writePairs fs (ps.zip rs)

/-- Write contents positionally at a ragged list of path lists (in-place
rewrite of the whole series by `registration.main`). -/
def writeSeries (fs : FS) (ps : List (List FPath)) (rs : List (List Raster)) :
    FS :=
  (ps.zip rs).foldl (fun f pv => writeGroup f pv.1 pv.2) fs

/-- Run a state-and-trace step function over a list, concatenating the
emitted events in order. -/
def runList (step : FS → α → FS × List Event) : FS → List α →
    FS × List Event
  | fs, [] => (fs, [])
  | fs, x :: xs =>
    let st := step fs x
    let rest := runList step st.1 xs
    (rest.1, st.2 ++ rest.2)

/-- One iteration of the download loop: acquire one scene's crops, test
them for emptiness, and either keep the crop set or delete its files
(lines 65–73 of the source). -/
def sceneStep (c : Collab) (bands : List Band) (lon lat : Int) (w h : Nat)
    (outDir : FPath) (fs : FS) (img : Scene) :
    FS × List Event × Option (List FPath) :=
  let res := c.acquire img bands lon lat w h outDir
  let fs1 := writePairs fs res
  let l := res.map Prod.fst
  let ev := Event.acquireCall img bands lon lat w h outDir
  if l.isEmpty then (fs1, [ev], none)
  else if l.all (fun x => (fs1.readD x).hasNonzero) then
    (fs1, [ev], some l)
  else
    (l.foldl FS.erase fs1, ev :: l.map Event.removeFile, none)

/-- The download loop over all discovered scenes, collecting the surviving
crop sets in discovery order. -/
def downloadLoop (c : Collab) (bands : List Band) (lon lat : Int)
    (w h : Nat) (outDir : FPath) : FS → List Scene →
    FS × List Event × List (List FPath)
  | fs, [] => (fs, [], [])
  | fs, img :: imgs =>
    let st := sceneStep c bands lon lat w h outDir fs img
    let rest := downloadLoop c bands lon lat w h outDir st.1 imgs
    (rest.1, st.2.1 ++ rest.2.1, st.2.2.toList ++ rest.2.2)

/-- One pre-registration snapshot copy: the source crops the image to
remove the margin while copying it into the backup directory
(line 83: `utils.crop_georeferenced_image(o, b, lon, lat, w-100, h-100)`). -/
def regSnapshotStep (c : Collab) (bak : FPath) (lon lat : Int) (w h : Nat)
    (fs : FS) (b : FPath) : FS × List Event :=
  let o := bak ++ [b.getLastD ""]
  (fs.write o (cropGeorefImage c (fs.readD b) lon lat (w - 100) (h - 100)),
   [Event.cropCall o b lon lat (w - 100) (h - 100)])

/-- One margin-removal trim of a working artifact, in place
(line 89: `utils.crop_georeferenced_image(b, b, lon, lat, w-100, h-100)`). -/
def trimStep (c : Collab) (lon lat : Int) (w h : Nat) (fs : FS) (b : FPath) :
    FS × List Event :=
  (fs.write b (cropGeorefImage c (fs.readD b) lon lat (w - 100) (h - 100)),
   [Event.cropCall b b lon lat (w - 100) (h - 100)])

/-- One pre-equalization snapshot copy: `shutil.copy(b, out_dir/no_midway)`
copies the file byte-for-byte under its original filename. -/
def copyStep (nm : FPath) (fs : FS) (b : FPath) : FS × List Event :=
  let o := nm ++ [b.getLastD ""]
  (fs.write o (fs.readD b), [Event.copyFile b o])

/-- The band group handed to `midway.main` for band index `i`:
`[crop[i] for crop in crops if len(crop) > i]` (line 100). -/
def bandGroup (crops : List (List FPath)) (i : Nat) : List FPath :=
  crops.filterMap (fun cr => cr.get? i)

/-- One equalization call: `midway.main` rewrites the band group in place. -/
def midwayStep (c : Collab) (outDir : FPath) (crops : List (List FPath))
    (fs : FS) (i : Nat) : FS × List Event :=
  let group := bandGroup crops i
  (writeGroup fs group (c.midwayFn (group.map fs.readD)),
   [Event.midwayCall group outDir])

/-- The registration stage (lines 76–89): optional debug snapshot, one
registration call over the whole series against itself, then the
margin-removal trim of every artifact. -/
def registerPhase (c : Collab) (a : Args) (w h : Nat)
    (crops : List (List FPath)) (fs : FS) : FS × List Event :=
  if a.register then
    let snap :=
      if a.debug then
        let bak := a.outDir ++ ["no_registration"]
        let st := runList (regSnapshotStep c bak a.lon a.lat w h) fs
          crops.flatten
        (st.1, Event.mkdirCall bak :: st.2)
      else (fs, [])
    let contents := crops.map (fun cr => cr.map snap.1.readD)
    let fs2 := writeSeries snap.1 crops (c.registerFn contents)
    let trimmed := runList (trimStep c a.lon a.lat w h) fs2 crops.flatten
    (trimmed.1,
     snap.2 ++ Event.registerCall crops crops true :: trimmed.2)
  else (fs, [])

/-- The equalization stage (lines 92–100): optional debug snapshot, then
one `midway.main` call per requested band index. -/
def equalizePhase (c : Collab) (a : Args) (crops : List (List FPath))
    (fs : FS) : FS × List Event :=
  if a.equalize then
    let snap :=
      if a.debug then
        let nm := a.outDir ++ ["no_midway"]
        let st := runList (copyStep nm) fs crops.flatten
        (st.1, Event.mkdirCall nm :: st.2)
      else (fs, [])
    let eq := runList (midwayStep c a.outDir crops) snap.1
      (List.range a.bands.length)
    (eq.1, snap.2 ++ eq.2)
  else (fs, [])

/-- The working width: `if register: w += 100` (line 60). -/
def workingW (a : Args) : Nat := if a.register then a.w + 100 else a.w

/-- The working height: `if register: h += 100` (line 61). -/
def workingH (a : Args) : Nat := if a.register then a.h + 100 else a.h

/-- The download stage of the pipeline, at the working footprint. -/
def downloadOf (c : Collab) (a : Args) (fs0 : FS) :
    FS × List Event × List (List FPath) :=
  downloadLoop c a.bands a.lon a.lat (workingW a) (workingH a) a.outDir
    fs0 c.listImages

/-- The pipeline `get_time_series` of `get_landsat.py`: returns the final
filesystem, the chronological event trace, and the surviving time series
(ragged list of crop sets). -/
def get_time_series (c : Collab) (a : Args) (fs0 : FS) :
    FS × List Event × List (List FPath) :=
  let dl := downloadOf c a fs0
  let crops := dl.2.2
  let reg := registerPhase c a (workingW a) (workingH a) crops dl.1
  let eq := equalizePhase c a crops reg.1
  (eq.1, dl.2.1 ++ reg.2 ++ eq.2, crops)

/-! ## Event classifiers and observation helpers -/

/-- True for acquisition calls. -/
def isAcquireEvent : Event → Bool
  | .acquireCall .. => true
  | _ => false

/-- True for file deletions. -/
def isRemoveEvent : Event → Bool
  | .removeFile _ => true
  | _ => false

/-- True for directory creations. -/
def isMkdirEvent : Event → Bool
  | .mkdirCall _ => true
  | _ => false

/-- True for plain file copies. -/
def isCopyEvent : Event → Bool
  | .copyFile _ _ => true
  | _ => false

/-- True for georeferenced crop rewrites. -/
def isCropEvent : Event → Bool
  | .cropCall .. => true
  | _ => false

/-- True for registration collaborator calls. -/
def isRegisterEvent : Event → Bool
  | .registerCall .. => true
  | _ => false

/-- True for equalization collaborator calls. -/
def isMidwayEvent : Event → Bool
  | .midwayCall .. => true
  | _ => false

/-- True for in-place trims (crop rewrites whose destination is the
source itself). -/
def isTrimEvent : Event → Bool
  | .cropCall d s _ _ _ _ => d == s
  | _ => false

/-- True for any snapshotting action: a directory creation, a plain copy,
or a crop rewrite into a different file. -/
def isSnapshotEvent : Event → Bool
  | .mkdirCall _ => true
  | .copyFile _ _ => true
  | .cropCall d s _ _ _ _ => d != s
  | _ => false

/-- The registration calls of a trace. -/
def registerEvents (tr : List Event) : List Event :=
  tr.filter isRegisterEvent

/-- The equalization calls of a trace. -/
def midwayEvents (tr : List Event) : List Event :=
  tr.filter isMidwayEvent

/-- The acquisition calls of a trace. -/
def acquireEvents (tr : List Event) : List Event :=
  tr.filter isAcquireEvent

/-- How many times a trace trims the file at `b` in place. -/
def countTrimsAt (b : FPath) (tr : List Event) : Nat :=
  (tr.filter (fun e =>
    match e with
    | .cropCall d s _ _ _ _ => d == b && s == b
    | _ => false)).length

/-- The pre-registration snapshot directory. -/
def nrDir (outDir : FPath) : FPath := outDir ++ ["no_registration"]

/-- The pre-equalization snapshot directory. -/
def nmDir (outDir : FPath) : FPath := outDir ++ ["no_midway"]

/-- Whether a path lies inside one of the two debug snapshot
directories. -/
def inArea (outDir p : FPath) : Bool :=
  p.dropLast == nrDir outDir || p.dropLast == nmDir outDir

/-- Two filesystems agree outside the snapshot directories. -/
def agreeOff (outDir : FPath) (f g : FS) : Prop :=
  ∀ p, inArea outDir p = false → f p = g p

/-! ## Basic filesystem lemmas -/

theorem FS.write_self (fs : FS) (p : FPath) (r : Raster) :
    fs.write p r p = some r := by
  simp [FS.write]

theorem FS.write_other (fs : FS) (p q : FPath) (r : Raster) (h : q ≠ p) :
    fs.write p r q = fs q := by
  simp [FS.write, h]

theorem writePairs_frame (fs : FS) (l : List (FPath × Raster)) (q : FPath)
    (h : q ∉ l.map Prod.fst) : writePairs fs l q = fs q := by
  induction l generalizing fs with
  | nil => rfl
  | cons pr l ih =>
    simp only [List.map_cons, List.mem_cons] at h
    push_neg at h
    simp only [writePairs, List.foldl_cons]
    rw [show (List.foldl (fun f pr => FS.write f pr.1 pr.2)
        (FS.write fs pr.1 pr.2) l) = writePairs (fs.write pr.1 pr.2) l
      from rfl]
    rw [ih (fs.write pr.1 pr.2) h.2, FS.write_other _ _ _ _ h.1]

theorem writePairs_congr (f g : FS) (l : List (FPath × Raster)) (q : FPath)
    (h : f q = g q) : writePairs f l q = writePairs g l q := by
  induction l generalizing f g with
  | nil => exact h
  | cons pr l ih =>
    simp only [writePairs, List.foldl_cons]
    exact ih (f.write pr.1 pr.2) (g.write pr.1 pr.2)
      (by by_cases hq : q = pr.1 <;> simp [FS.write, hq, h])

theorem writeGroup_frame (fs : FS) (ps : List FPath) (rs : List Raster)
    (q : FPath) (h : q ∉ ps) : writeGroup fs ps rs q = fs q := by
  apply writePairs_frame
  intro hmem
  rcases List.mem_map.1 hmem with ⟨pr, hpr, hfst⟩
  exact h (hfst ▸ (List.of_mem_zip (by exact hpr)).1)

theorem writeGroup_congr (f g : FS) (ps : List FPath) (rs : List Raster)
    (q : FPath) (h : f q = g q) : writeGroup f ps rs q = writeGroup g ps rs q :=
  writePairs_congr f g _ q h

theorem writeSeries_frame (fs : FS) (ps : List (List FPath))
    (rs : List (List Raster)) (q : FPath) (h : q ∉ ps.flatten) :
    writeSeries fs ps rs q = fs q := by
  induction ps generalizing fs rs with
  | nil => rfl
  | cons cr ps ih =>
    cases rs with
    | nil => rfl
    | cons v rs =>
      simp only [List.flatten_cons, List.mem_append] at h
      push_neg at h
      simp only [writeSeries, List.zip_cons_cons, List.foldl_cons]
      rw [show (List.foldl (fun f pv => writeGroup f pv.1 pv.2)
          (writeGroup fs cr v) (ps.zip rs)) =
          writeSeries (writeGroup fs cr v) ps rs from rfl]
      rw [ih (writeGroup fs cr v) rs h.2, writeGroup_frame _ _ _ _ h.1]

theorem writeSeries_congr (f g : FS) (ps : List (List FPath))
    (rs : List (List Raster)) (q : FPath) (h : f q = g q) :
    writeSeries f ps rs q = writeSeries g ps rs q := by
  induction ps generalizing f g rs with
  | nil => exact h
  | cons cr ps ih =>
    cases rs with
    | nil => exact h
    | cons v rs =>
      simp only [writeSeries, List.zip_cons_cons, List.foldl_cons]
      exact ih (writeGroup f cr v) (writeGroup g cr v) rs
        (writeGroup_congr f g cr v q h)

theorem FS.readD_congr (f g : FS) (p : FPath) (h : f p = g p) :
    f.readD p = g.readD p := by
  simp [FS.readD, h]

/-! ## Loop traces -/

theorem runList_trim_trace (c : Collab) (lon lat : Int) (w h : Nat)
    (fs : FS) (xs : List FPath) :
    (runList (trimStep c lon lat w h) fs xs).2 =
      xs.map (fun b => Event.cropCall b b lon lat (w - 100) (h - 100)) := by
  induction xs generalizing fs with
  | nil => rfl
  | cons x xs ih => simp [runList, trimStep, ih]

theorem runList_snap_trace (c : Collab) (bak : FPath) (lon lat : Int)
    (w h : Nat) (fs : FS) (xs : List FPath) :
    (runList (regSnapshotStep c bak lon lat w h) fs xs).2 =
      xs.map (fun b => Event.cropCall (bak ++ [b.getLastD ""]) b lon lat
        (w - 100) (h - 100)) := by
  induction xs generalizing fs with
  | nil => rfl
  | cons x xs ih => simp [runList, regSnapshotStep, ih]

theorem runList_copy_trace (nm : FPath) (fs : FS) (xs : List FPath) :
    (runList (copyStep nm) fs xs).2 =
      xs.map (fun b => Event.copyFile b (nm ++ [b.getLastD ""])) := by
  induction xs generalizing fs with
  | nil => rfl
  | cons x xs ih => simp [runList, copyStep, ih]

theorem runList_midway_trace (c : Collab) (outDir : FPath)
    (crops : List (List FPath)) (fs : FS) (is : List Nat) :
    (runList (midwayStep c outDir crops) fs is).2 =
      is.map (fun i => Event.midwayCall (bandGroup crops i) outDir) := by
  induction is generalizing fs with
  | nil => rfl
  | cons i is ih => simp [runList, midwayStep, ih]

/-! ## Loop frame lemmas -/

theorem runList_trim_frame (c : Collab) (lon lat : Int) (w h : Nat)
    (fs : FS) (xs : List FPath) (q : FPath) (h1 : q ∉ xs) :
    (runList (trimStep c lon lat w h) fs xs).1 q = fs q := by
  induction xs generalizing fs with
  | nil => rfl
  | cons x xs ih =>
    simp only [List.mem_cons] at h1
    push_neg at h1
    simp only [runList, trimStep]
    rw [ih _ h1.2, FS.write_other _ _ _ _ h1.1]

theorem runList_snap_frame (c : Collab) (bak : FPath) (lon lat : Int)
    (w h : Nat) (fs : FS) (xs : List FPath) (q : FPath)
    (h1 : ∀ b ∈ xs, q ≠ bak ++ [b.getLastD ""]) :
    (runList (regSnapshotStep c bak lon lat w h) fs xs).1 q = fs q := by
  induction xs generalizing fs with
  | nil => rfl
  | cons x xs ih =>
    simp only [runList, regSnapshotStep]
    rw [ih _ (fun b hb => h1 b (List.mem_cons_of_mem _ hb)),
      FS.write_other _ _ _ _ (h1 x (List.mem_cons_self _ _))]

theorem runList_copy_frame (nm : FPath) (fs : FS) (xs : List FPath)
    (q : FPath) (h1 : ∀ b ∈ xs, q ≠ nm ++ [b.getLastD ""]) :
    (runList (copyStep nm) fs xs).1 q = fs q := by
  induction xs generalizing fs with
  | nil => rfl
  | cons x xs ih =>
    simp only [runList, copyStep]
    rw [ih _ (fun b hb => h1 b (List.mem_cons_of_mem _ hb)),
      FS.write_other _ _ _ _ (h1 x (List.mem_cons_self _ _))]

theorem bandGroup_subset_flatten (crops : List (List FPath)) (i : Nat)
    (p : FPath) (hp : p ∈ bandGroup crops i) : p ∈ crops.flatten := by
  rcases List.mem_filterMap.1 hp with ⟨cr, hcr, hget⟩
  exact List.mem_flatten.2 ⟨cr, hcr, List.get?_mem hget⟩

theorem runList_midway_frame (c : Collab) (outDir : FPath)
    (crops : List (List FPath)) (fs : FS) (is : List Nat) (q : FPath)
    (h1 : q ∉ crops.flatten) :
    (runList (midwayStep c outDir crops) fs is).1 q = fs q := by
  induction is generalizing fs with
  | nil => rfl
  | cons i is ih =>
    simp only [runList, midwayStep]
    rw [ih, writeGroup_frame]
    intro hq
    exact h1 (bandGroup_subset_flatten crops i q hq)

/-! ## Loop value lemmas -/

theorem runList_trim_mem (c : Collab) (lon lat : Int) (w h : Nat)
    (fs : FS) (xs : List FPath) (b : FPath) (hb : b ∈ xs) :
    ∃ r0, (runList (trimStep c lon lat w h) fs xs).1 b =
      some (cropGeorefImage c r0 lon lat (w - 100) (h - 100)) := by
  induction xs generalizing fs with
  | nil => cases hb
  | cons x xs ih =>
    by_cases hmem : b ∈ xs
    · exact ih _ hmem
    · have hbx : b = x := by
        rcases List.mem_cons.1 hb with h' | h'
        · exact h'
        · exact absurd h' hmem
      refine ⟨fs.readD b, ?_⟩
      simp only [runList, trimStep]
      rw [runList_trim_frame _ _ _ _ _ _ _ _ hmem, hbx,
        FS.write_self]

theorem dropLast_dir_file (d : FPath) (s : String) :
    (d ++ [s]).dropLast = d := by
  simp

theorem append_file_inj (d : FPath) (s t : String)
    (h : d ++ [s] = d ++ [t]) : s = t := by
  have := List.append_cancel_left h
  simpa using this

theorem runList_snap_val (c : Collab) (bak : FPath) (lon lat : Int)
    (w h : Nat) (fs : FS) (xs : List FPath) (b : FPath) (hb : b ∈ xs)
    (hnd : (xs.map (fun p => p.getLastD "")).Nodup)
    (hW : ∀ x ∈ xs, ∀ y ∈ xs, x ≠ bak ++ [y.getLastD ""]) :
    (runList (regSnapshotStep c bak lon lat w h) fs xs).1
        (bak ++ [b.getLastD ""]) =
      some (cropGeorefImage c (fs.readD b) lon lat (w - 100) (h - 100)) := by
  induction xs generalizing fs with
  | nil => cases hb
  | cons x xs ih =>
    simp only [List.map_cons, List.nodup_cons] at hnd
    by_cases hbx : b = x
    · subst hbx
      simp only [runList, regSnapshotStep]
      rw [runList_snap_frame]
      · exact FS.write_self _ _ _
      · intro y hy hcontra
        exact hnd.1 (List.mem_map.2 ⟨y, hy,
          (append_file_inj _ _ _ hcontra).symm⟩)
    · have hmem : b ∈ xs := by
        rcases List.mem_cons.1 hb with h' | h'
        · exact absurd h' hbx
        · exact h'
      simp only [runList, regSnapshotStep]
      rw [ih _ hmem hnd.2
        (fun p hp q hq => hW p (List.mem_cons_of_mem _ hp) q
          (List.mem_cons_of_mem _ hq))]
      congr 2
      apply FS.readD_congr
      exact FS.write_other _ _ _ _
        (hW b hb x (List.mem_cons_self _ _))

theorem runList_copy_val (nm : FPath) (fs : FS) (xs : List FPath)
    (b : FPath) (hb : b ∈ xs)
    (hnd : (xs.map (fun p => p.getLastD "")).Nodup)
    (hW : ∀ x ∈ xs, ∀ y ∈ xs, x ≠ nm ++ [y.getLastD ""]) :
    (runList (copyStep nm) fs xs).1 (nm ++ [b.getLastD ""]) =
      some (fs.readD b) := by
  induction xs generalizing fs with
  | nil => cases hb
  | cons x xs ih =>
    simp only [List.map_cons, List.nodup_cons] at hnd
    by_cases hbx : b = x
    · subst hbx
      simp only [runList, copyStep]
      rw [runList_copy_frame]
      · exact FS.write_self _ _ _
      · intro y hy hcontra
        exact hnd.1 (List.mem_map.2 ⟨y, hy,
          (append_file_inj _ _ _ hcontra).symm⟩)
    · have hmem : b ∈ xs := by
        rcases List.mem_cons.1 hb with h' | h'
        · exact absurd h' hbx
        · exact h'
      simp only [runList, copyStep]
      rw [ih _ hmem hnd.2
        (fun p hp q hq => hW p (List.mem_cons_of_mem _ hp) q
          (List.mem_cons_of_mem _ hq))]
      congr 1
      apply FS.readD_congr
      exact FS.write_other _ _ _ _
        (hW b hb x (List.mem_cons_self _ _))

/-! ## Phase characterizations -/

/-- The filesystem after the optional pre-registration snapshot. -/
def snapFS (c : Collab) (a : Args) (w h : Nat) (crops : List (List FPath))
    (fs : FS) : FS :=
  if a.debug then
    (runList (regSnapshotStep c (nrDir a.outDir) a.lon a.lat w h) fs
      crops.flatten).1
  else fs

/-- The filesystem right after the registration collaborator returns
(before the margin trim). -/
def regFS (c : Collab) (a : Args) (w h : Nat) (crops : List (List FPath))
    (fs : FS) : FS :=
  writeSeries (snapFS c a w h crops fs) crops
    (c.registerFn (crops.map (fun cr =>
      cr.map (snapFS c a w h crops fs).readD)))

theorem registerPhase_false (c : Collab) (a : Args) (w h : Nat)
    (crops : List (List FPath)) (fs : FS) (hr : a.register = false) :
    registerPhase c a w h crops fs = (fs, []) := by
  simp [registerPhase, hr]

theorem registerPhase_true (c : Collab) (a : Args) (w h : Nat)
    (crops : List (List FPath)) (fs : FS) (hr : a.register = true) :
    registerPhase c a w h crops fs =
      ((runList (trimStep c a.lon a.lat w h) (regFS c a w h crops fs)
          crops.flatten).1,
       (if a.debug then
          Event.mkdirCall (nrDir a.outDir) ::
            (runList (regSnapshotStep c (nrDir a.outDir) a.lon a.lat w h)
              fs crops.flatten).2
        else []) ++
         Event.registerCall crops crops true ::
           (runList (trimStep c a.lon a.lat w h) (regFS c a w h crops fs)
             crops.flatten).2) := by
  cases hd : a.debug <;>
    simp [registerPhase, hr, hd, snapFS, regFS, nrDir]

/-- The filesystem after the optional pre-equalization snapshot. -/
def eqSnapFS (a : Args) (crops : List (List FPath)) (fs : FS) : FS :=
  if a.debug then
    (runList (copyStep (nmDir a.outDir)) fs crops.flatten).1
  else fs

theorem equalizePhase_false (c : Collab) (a : Args)
    (crops : List (List FPath)) (fs : FS) (he : a.equalize = false) :
    equalizePhase c a crops fs = (fs, []) := by
  simp [equalizePhase, he]

/-! ## Trace classification -/

theorem sceneStep_events (c : Collab) (bands : List Band) (lon lat : Int)
    (w h : Nat) (outDir : FPath) (fs : FS) (img : Scene) :
    ∀ e ∈ (sceneStep c bands lon lat w h outDir fs img).2.1,
      isAcquireEvent e = true ∨ isRemoveEvent e = true := by
  intro e he
  simp only [sceneStep] at he
  split at he
  · rcases List.mem_singleton.1 he with rfl
    left; rfl
  · split at he
    · rcases List.mem_singleton.1 he with rfl
      left; rfl
    · rcases List.mem_cons.1 he with rfl | he
      · left; rfl
      · rcases List.mem_map.1 he with ⟨p, _, rfl⟩
        right; rfl

theorem downloadLoop_events (c : Collab) (bands : List Band) (lon lat : Int)
    (w h : Nat) (outDir : FPath) (fs : FS) (imgs : List Scene) :
    ∀ e ∈ (downloadLoop c bands lon lat w h outDir fs imgs).2.1,
      isAcquireEvent e = true ∨ isRemoveEvent e = true := by
  induction imgs generalizing fs with
  | nil => intro e he; cases he
  | cons img imgs ih =>
    intro e he
    simp only [downloadLoop, List.mem_append] at he
    rcases he with he | he
    · exact sceneStep_events c bands lon lat w h outDir fs img e he
    · exact ih _ e he

theorem registerPhase_trace_mem (c : Collab) (a : Args) (w h : Nat)
    (crops : List (List FPath)) (fs : FS) :
    ∀ e ∈ (registerPhase c a w h crops fs).2,
      e = Event.mkdirCall (nrDir a.outDir)
      ∨ (∃ b ∈ crops.flatten,
          e = Event.cropCall (nrDir a.outDir ++ [b.getLastD ""]) b a.lon
            a.lat (w - 100) (h - 100))
      ∨ e = Event.registerCall crops crops true
      ∨ (∃ b ∈ crops.flatten,
          e = Event.cropCall b b a.lon a.lat (w - 100) (h - 100)) := by
  intro e he
  cases hr : a.register
  · rw [registerPhase_false c a w h crops fs hr] at he
    cases he
  · rw [registerPhase_true c a w h crops fs hr] at he
    simp only [List.mem_append, List.mem_cons] at he
    rcases he with he | he | he
    · cases hd : a.debug
      · rw [hd] at he; cases he
      · rw [hd] at he
        simp only [if_true] at he
        rcases List.mem_cons.1 he with rfl | he
        · left; rfl
        · rw [runList_snap_trace] at he
          rcases List.mem_map.1 he with ⟨b, hb, rfl⟩
          exact Or.inr (Or.inl ⟨b, hb, rfl⟩)
    · exact Or.inr (Or.inr (Or.inl he))
    · rw [runList_trim_trace] at he
      rcases List.mem_map.1 he with ⟨b, hb, rfl⟩
      exact Or.inr (Or.inr (Or.inr ⟨b, hb, rfl⟩))

theorem equalizePhase_true (c : Collab) (a : Args)
    (crops : List (List FPath)) (fs : FS) (he : a.equalize = true) :
    equalizePhase c a crops fs =
      ((runList (midwayStep c a.outDir crops) (eqSnapFS a crops fs)
          (List.range a.bands.length)).1,
       (if a.debug then
          Event.mkdirCall (nmDir a.outDir) ::
            (runList (copyStep (nmDir a.outDir)) fs crops.flatten).2
        else []) ++
         (runList (midwayStep c a.outDir crops) (eqSnapFS a crops fs)
           (List.range a.bands.length)).2) := by
  cases hd : a.debug <;>
    simp [equalizePhase, he, hd, eqSnapFS, nmDir]

theorem equalizePhase_trace_mem (c : Collab) (a : Args)
    (crops : List (List FPath)) (fs : FS) :
    ∀ e ∈ (equalizePhase c a crops fs).2,
      e = Event.mkdirCall (nmDir a.outDir)
      ∨ (∃ b ∈ crops.flatten,
          e = Event.copyFile b (nmDir a.outDir ++ [b.getLastD ""]))
      ∨ (∃ i, i < a.bands.length ∧
          e = Event.midwayCall (bandGroup crops i) a.outDir) := by
  intro e he
  cases heq : a.equalize
  · rw [equalizePhase_false c a crops fs heq] at he
    cases he
  · rw [equalizePhase_true c a crops fs heq] at he
    simp only [List.mem_append] at he
    rcases he with he | he
    · cases hd : a.debug
      · rw [hd] at he; cases he
      · rw [hd] at he
        simp only [if_true] at he
        rcases List.mem_cons.1 he with rfl | he
        · left; rfl
        · rw [runList_copy_trace] at he
          rcases List.mem_map.1 he with ⟨b, hb, rfl⟩
          exact Or.inr (Or.inl ⟨b, hb, rfl⟩)
    · rw [runList_midway_trace] at he
      rcases List.mem_map.1 he with ⟨i, hi, rfl⟩
      exact Or.inr (Or.inr ⟨i, List.mem_range.1 hi, rfl⟩)

/-! ## Erasure lemmas -/

theorem foldl_erase_frame (fs : FS) (l : List FPath) (p : FPath)
    (hp : p ∉ l) : (l.foldl FS.erase fs) p = fs p := by
  induction l generalizing fs with
  | nil => rfl
  | cons x xs ih =>
    simp only [List.mem_cons] at hp
    push_neg at hp
    simp only [List.foldl_cons]
    rw [ih _ hp.2]
    simp [FS.erase, hp.1]

theorem foldl_erase_none (fs : FS) (l : List FPath) (p : FPath)
    (hp : p ∈ l) : (l.foldl FS.erase fs) p = none := by
  induction l generalizing fs with
  | nil => cases hp
  | cons x xs ih =>
    by_cases hmem : p ∈ xs
    · exact ih _ hmem
    · have hpx : p = x := by
        rcases List.mem_cons.1 hp with h' | h'
        · exact h'
        · exact absurd h' hmem
      simp only [List.foldl_cons]
      rw [foldl_erase_frame _ _ _ hmem, hpx]
      simp [FS.erase]

/-! ## Claims -/

/-- C1: for a discovered scene whose acquisition returns a non-empty list
of crop artifacts, the scene's crop set is appended to the time series if
and only if every artifact's raster has at least one non-zero sample;
otherwise the crop set is not appended and every artifact of the scene is
deleted from storage.  (The model is a total function, so no error is
raised in either case.) -/
theorem scene_filter_spec (c : Collab) (bands : List Band) (lon lat : Int)
    (w h : Nat) (outDir : FPath) (fs : FS) (img : Scene) (imgs : List Scene)
    (hne : (c.acquire img bands lon lat w h outDir).map Prod.fst ≠ []) :
    ((sceneStep c bands lon lat w h outDir fs img).2.2 =
        some ((c.acquire img bands lon lat w h outDir).map Prod.fst) ↔
      ((c.acquire img bands lon lat w h outDir).map Prod.fst).all
        (fun x => ((writePairs fs
          (c.acquire img bands lon lat w h outDir)).readD x).hasNonzero) =
        true)
    ∧ (downloadLoop c bands lon lat w h outDir fs (img :: imgs)).2.2 =
        (sceneStep c bands lon lat w h outDir fs img).2.2.toList ++
          (downloadLoop c bands lon lat w h outDir
            (sceneStep c bands lon lat w h outDir fs img).1 imgs).2.2
    ∧ (((c.acquire img bands lon lat w h outDir).map Prod.fst).all
        (fun x => ((writePairs fs
          (c.acquire img bands lon lat w h outDir)).readD x).hasNonzero) =
        false →
        (sceneStep c bands lon lat w h outDir fs img).2.2 = none ∧
        ∀ p ∈ (c.acquire img bands lon lat w h outDir).map Prod.fst,
          (sceneStep c bands lon lat w h outDir fs img).1 p = none) := by
  have hempty : ((c.acquire img bands lon lat w h outDir).map
      Prod.fst).isEmpty = false := by
    cases hc : (c.acquire img bands lon lat w h outDir).map Prod.fst
    · exact absurd hc hne
    · rfl
  refine ⟨?_, rfl, ?_⟩
  · simp only [sceneStep, hempty, Bool.false_eq_true, if_false]
    cases hall : ((c.acquire img bands lon lat w h outDir).map Prod.fst).all
        (fun x => ((writePairs fs
          (c.acquire img bands lon lat w h outDir)).readD x).hasNonzero)
    · simp
    · simp
  · intro hall
    simp only [sceneStep, hempty, Bool.false_eq_true, if_false, hall]
    refine ⟨by trivial, ?_⟩
    intro p hp
    exact foldl_erase_none _ _ _ hp

theorem sceneStep_acquire_shape (c : Collab) (bands : List Band)
    (lon lat : Int) (w h : Nat) (outDir : FPath) (fs : FS) (img : Scene) :
    ∀ e ∈ (sceneStep c bands lon lat w h outDir fs img).2.1,
      isAcquireEvent e = true →
      e = Event.acquireCall img bands lon lat w h outDir := by
  intro e he hacq
  simp only [sceneStep] at he
  split at he
  · exact List.mem_singleton.1 he
  · split at he
    · exact List.mem_singleton.1 he
    · rcases List.mem_cons.1 he with rfl | he
      · rfl
      · rcases List.mem_map.1 he with ⟨p, _, rfl⟩
        cases hacq

theorem downloadLoop_acquire_shape (c : Collab) (bands : List Band)
    (lon lat : Int) (w h : Nat) (outDir : FPath) (fs : FS)
    (imgs : List Scene) :
    ∀ e ∈ (downloadLoop c bands lon lat w h outDir fs imgs).2.1,
      isAcquireEvent e = true →
      ∃ img, e = Event.acquireCall img bands lon lat w h outDir := by
  induction imgs generalizing fs with
  | nil => intro e he; cases he
  | cons img imgs ih =>
    intro e he hacq
    simp only [downloadLoop, List.mem_append] at he
    rcases he with he | he
    · exact ⟨img, sceneStep_acquire_shape c bands lon lat w h outDir fs img
        e he hacq⟩
    · exact ih _ e he hacq

theorem get_time_series_trace (c : Collab) (a : Args) (fs0 : FS) :
    (get_time_series c a fs0).2.1 =
      (downloadOf c a fs0).2.1 ++
      ((registerPhase c a (workingW a) (workingH a) (downloadOf c a fs0).2.2
          (downloadOf c a fs0).1).2 ++
        (equalizePhase c a (downloadOf c a fs0).2.2
          (registerPhase c a (workingW a) (workingH a)
            (downloadOf c a fs0).2.2 (downloadOf c a fs0).1).1).2) := by
  simp [get_time_series]

/-- C4: every acquisition call uses the working footprint — the requested
width and height plus 100 ground-meters each when `register` is true, and
the requested width and height unchanged when `register` is false; and
when `register` is false no crop rewrite of any artifact ever happens, so
nothing is requested or rewritten beyond the requested footprint. -/
theorem margin_policy_spec (c : Collab) (a : Args) (fs0 : FS) :
    (∀ e ∈ (get_time_series c a fs0).2.1, isAcquireEvent e = true →
      ∃ img, e = Event.acquireCall img a.bands a.lon a.lat
        (if a.register then a.w + 100 else a.w)
        (if a.register then a.h + 100 else a.h) a.outDir)
    ∧ (a.register = false →
      ∀ e ∈ (get_time_series c a fs0).2.1, isCropEvent e = false) := by
  constructor
  · intro e he hacq
    rw [get_time_series_trace] at he
    rcases List.mem_append.1 he with he | he
    · have := downloadLoop_acquire_shape c a.bands a.lon a.lat (workingW a)
        (workingH a) a.outDir fs0 c.listImages e he hacq
      simpa [workingW, workingH] using this
    · rcases List.mem_append.1 he with he | he
      · rcases registerPhase_trace_mem c a (workingW a) (workingH a) _ _ e he
          with rfl | ⟨b, _, rfl⟩ | rfl | ⟨b, _, rfl⟩ <;> cases hacq
      · rcases equalizePhase_trace_mem c a _ _ e he
          with rfl | ⟨b, _, rfl⟩ | ⟨i, _, rfl⟩ <;> cases hacq
  · intro hr e he
    rw [get_time_series_trace] at he
    rcases List.mem_append.1 he with he | he
    · rcases downloadLoop_events c a.bands a.lon a.lat (workingW a)
        (workingH a) a.outDir fs0 c.listImages e he with h1 | h1 <;>
        (cases e <;> simp_all [isAcquireEvent, isRemoveEvent, isCropEvent])
    · rcases List.mem_append.1 he with he | he
      · rw [registerPhase_false _ _ _ _ _ _ hr] at he
        cases he
      · rcases equalizePhase_trace_mem c a _ _ e he
          with rfl | ⟨b, _, rfl⟩ | ⟨i, _, rfl⟩ <;> rfl

/-- C9: when the debug flag is false, no snapshot directory is ever
created and no snapshot copy of any artifact is ever made (no directory
creation, no plain file copy, and no crop rewrite into a different file),
regardless of the register and equalize flags. -/
theorem no_debug_no_snapshot (c : Collab) (a : Args) (fs0 : FS)
    (hd : a.debug = false) :
    ∀ e ∈ (get_time_series c a fs0).2.1, isSnapshotEvent e = false := by
  intro e he
  rw [get_time_series_trace] at he
  rcases List.mem_append.1 he with he | he
  · rcases downloadLoop_events c a.bands a.lon a.lat (workingW a)
      (workingH a) a.outDir fs0 c.listImages e he with h1 | h1 <;>
      (cases e <;> simp_all [isAcquireEvent, isRemoveEvent, isSnapshotEvent])
  · rcases List.mem_append.1 he with he | he
    · cases hr : a.register
      · rw [registerPhase_false _ _ _ _ _ _ hr] at he
        cases he
      · rw [registerPhase_true _ _ _ _ _ _ hr, hd] at he
        simp only [Bool.false_eq_true, if_false, List.nil_append] at he
        rcases List.mem_cons.1 he with rfl | he
        · rfl
        · rw [runList_trim_trace] at he
          rcases List.mem_map.1 he with ⟨b, _, rfl⟩
          simp [isSnapshotEvent]
    · cases heq : a.equalize
      · rw [equalizePhase_false _ _ _ _ heq] at he
        cases he
      · rw [equalizePhase_true _ _ _ _ heq, hd] at he
        simp only [Bool.false_eq_true, if_false, List.nil_append] at he
        rw [runList_midway_trace] at he
        rcases List.mem_map.1 he with ⟨i, _, rfl⟩
        rfl

/-- C10: when the debug flag is true, checkpoint directory creation does
not depend on there being any surviving artifacts: with `register` true
the `no_registration` directory is created, and with `equalize` true the
`no_midway` directory is created, whatever the time series (in particular
when it is empty and zero copies are made). -/
theorem snapshot_dirs_created (c : Collab) (a : Args) (fs0 : FS)
    (hd : a.debug = true) :
    (a.register = true →
      Event.mkdirCall (nrDir a.outDir) ∈ (get_time_series c a fs0).2.1)
    ∧ (a.equalize = true →
      Event.mkdirCall (nmDir a.outDir) ∈ (get_time_series c a fs0).2.1) := by
  rw [get_time_series_trace]
  constructor
  · intro hr
    refine List.mem_append.2 (Or.inr (List.mem_append.2 (Or.inl ?_)))
    rw [registerPhase_true _ _ _ _ _ _ hr, hd]
    simp
  · intro heq
    refine List.mem_append.2 (Or.inr (List.mem_append.2 (Or.inr ?_)))
    rw [equalizePhase_true _ _ _ _ heq, hd]
    simp

theorem bandGroup_length (crops : List (List FPath)) (i : Nat) :
    (bandGroup crops i).length =
      crops.countP (fun cr => decide (i < cr.length)) := by
  induction crops with
  | nil => rfl
  | cons cr crops ih =>
    rw [List.countP_cons]
    cases hget : cr.get? i with
    | none =>
      have hlen : ¬ i < cr.length := by
        have := List.get?_eq_none.1 hget
        omega
      rw [bandGroup]
      simp only [List.filterMap_cons, hget]
      rw [show List.filterMap (fun cr => cr.get? i) crops =
        bandGroup crops i from rfl, ih]
      simp [hlen]
    | some v =>
      have hlen : i < cr.length := by
        by_contra hcon
        rw [List.get?_eq_none.2 (by omega)] at hget
        cases hget
      rw [bandGroup]
      simp only [List.filterMap_cons, hget]
      rw [List.length_cons,
        show List.filterMap (fun cr => cr.get? i) crops =
          bandGroup crops i from rfl, ih]
      simp [hlen]

theorem bandGroup_eq_map_filter (crops : List (List FPath)) (i : Nat) :
    bandGroup crops i =
      (crops.filter (fun cr => decide (i < cr.length))).map
        (fun cr => cr.getD i []) := by
  induction crops with
  | nil => rfl
  | cons cr crops ih =>
    rw [List.filter_cons]
    cases hget : cr.get? i with
    | none =>
      have hlen : ¬ i < cr.length := by
        have := List.get?_eq_none.1 hget
        omega
      rw [bandGroup]
      simp only [List.filterMap_cons, hget]
      rw [if_neg (by simpa using hlen)]
      exact ih
    | some v =>
      have hlen : i < cr.length := by
        by_contra hcon
        rw [List.get?_eq_none.2 (by omega)] at hget
        cases hget
      rw [bandGroup]
      simp only [List.filterMap_cons, hget]
      rw [if_pos (by simpa using hlen), List.map_cons,
        List.getD_eq_getElem?_getD, ← List.get?_eq_getElem?, hget,
        Option.getD_some,
        show List.filterMap (fun cr => cr.get? i) crops =
          bandGroup crops i from rfl, ih]

theorem midwayEvents_append (A B : List Event) :
    midwayEvents (A ++ B) = midwayEvents A ++ midwayEvents B := by
  unfold midwayEvents
  exact List.filter_append A B

theorem registerEvents_append (A B : List Event) :
    registerEvents (A ++ B) = registerEvents A ++ registerEvents B := by
  unfold registerEvents
  exact List.filter_append A B

theorem acquireEvents_append (A B : List Event) :
    acquireEvents (A ++ B) = acquireEvents A ++ acquireEvents B := by
  unfold acquireEvents
  exact List.filter_append A B

/-- C2: when equalization is requested, exactly one equalization call is
made per band index `i` in range of the requested band sequence, in order;
the band group passed to call `i` consists exactly of the artifacts at
position `i` of every surviving crop set of length greater than `i`, in
time-series order, so its cardinality equals the count of surviving crop
sets with length greater than `i`. -/
theorem band_grouping_spec (c : Collab) (a : Args) (fs0 : FS)
    (he : a.equalize = true) :
    midwayEvents (get_time_series c a fs0).2.1 =
      (List.range a.bands.length).map (fun i =>
        Event.midwayCall (bandGroup (get_time_series c a fs0).2.2 i)
          a.outDir)
    ∧ (∀ i, bandGroup (get_time_series c a fs0).2.2 i =
        ((get_time_series c a fs0).2.2.filter
          (fun cr => decide (i < cr.length))).map (fun cr => cr.getD i []))
    ∧ (∀ i, (bandGroup (get_time_series c a fs0).2.2 i).length =
        (get_time_series c a fs0).2.2.countP
          (fun cr => decide (i < cr.length))) := by
  refine ⟨?_, fun i => bandGroup_eq_map_filter _ i,
    fun i => bandGroup_length _ i⟩
  have hcrops : (get_time_series c a fs0).2.2 = (downloadOf c a fs0).2.2 :=
    rfl
  rw [get_time_series_trace, hcrops, midwayEvents_append,
    midwayEvents_append]
  have hdl : midwayEvents (downloadOf c a fs0).2.1 = [] := by
    refine List.filter_eq_nil_iff.2 (fun e hee => ?_)
    rcases downloadLoop_events c a.bands a.lon a.lat (workingW a)
      (workingH a) a.outDir fs0 c.listImages e hee with h1 | h1 <;>
      (cases e <;> simp_all [isAcquireEvent, isRemoveEvent, isMidwayEvent])
  have hreg : midwayEvents (registerPhase c a (workingW a) (workingH a)
      (downloadOf c a fs0).2.2 (downloadOf c a fs0).1).2 = [] := by
    refine List.filter_eq_nil_iff.2 (fun e hee => ?_)
    rcases registerPhase_trace_mem c a (workingW a) (workingH a) _ _ e hee
      with rfl | ⟨b, _, rfl⟩ | rfl | ⟨b, _, rfl⟩ <;> simp [isMidwayEvent]
  rw [hdl, hreg, List.nil_append, List.nil_append]
  rw [equalizePhase_true _ _ _ _ he, midwayEvents_append]
  have hsnap : midwayEvents (if a.debug then
      Event.mkdirCall (nmDir a.outDir) ::
        (runList (copyStep (nmDir a.outDir))
          (registerPhase c a (workingW a) (workingH a)
            (downloadOf c a fs0).2.2 (downloadOf c a fs0).1).1
          (downloadOf c a fs0).2.2.flatten).2
    else []) = [] := by
    cases hd : a.debug
    · rfl
    · simp only [if_true]
      refine List.filter_eq_nil_iff.2 (fun e hee => ?_)
      rcases List.mem_cons.1 hee with rfl | hee
      · simp [isMidwayEvent]
      · rw [runList_copy_trace] at hee
        rcases List.mem_map.1 hee with ⟨b, _, rfl⟩
        simp [isMidwayEvent]
  rw [hsnap, List.nil_append, runList_midway_trace]
  refine List.filter_eq_self.2 (fun e hee => ?_)
  rcases List.mem_map.1 hee with ⟨i, _, rfl⟩
  rfl

theorem runList_midway_fs_nil (c : Collab) (od : FPath) (fs : FS)
    (is : List Nat) :
    (runList (midwayStep c od []) fs is).1 = fs := by
  induction is generalizing fs with
  | nil => rfl
  | cons i is ih =>
    simpa [runList, midwayStep, bandGroup, writeGroup, writePairs]
      using ih _

/-- A concrete collaborator whose discovery query returns no scene. -/
def cEmpty : Collab :=
  { listImages := []
  , acquire := fun _ _ _ _ _ _ _ => []
  , registerFn := fun xss => xss
  , midwayFn := fun xs => xs
  , cropFn := fun r _ _ _ _ => r.samples }

/-- Flags for the zero-scene run: register and equalize requested. -/
def aC6 : Args := ⟨0, 0, ["2"], 5000, 5000, true, true, ["out"], false⟩

/-- C6 counterexample: with zero discovered scenes and `register` and
`equalize` requested, the time series is empty but the registration
collaborator is still invoked (once, over the empty series) and the
equalization collaborator is still invoked (once per requested band, over
an empty group) — refuting the claim that no registration or equalization
collaborator calls occur for any setting of the flags. -/
theorem empty_discovery_cex :
    (get_time_series cEmpty aC6 fsEmpty).2.2 = [] ∧
    registerEvents (get_time_series cEmpty aC6 fsEmpty).2.1 =
      [Event.registerCall [] [] true] ∧
    midwayEvents (get_time_series cEmpty aC6 fsEmpty).2.1 =
      [Event.midwayCall [] ["out"]] := by
  decide

/-- C6 amended: when discovery returns zero scenes the time series is
empty, no acquisition call occurs, and the filesystem is left untouched;
however, if `register` is true the registration collaborator is still
invoked exactly once, over the empty series against itself, and if
`equalize` is true the equalization collaborator is still invoked once
per requested band index, over an empty group; the pipeline terminates
successfully. -/
theorem empty_discovery_amended (c : Collab) (a : Args) (fs0 : FS)
    (h0 : c.listImages = []) :
    (get_time_series c a fs0).2.2 = []
    ∧ acquireEvents (get_time_series c a fs0).2.1 = []
    ∧ (a.register = true →
        registerEvents (get_time_series c a fs0).2.1 =
          [Event.registerCall [] [] true])
    ∧ (a.register = false →
        registerEvents (get_time_series c a fs0).2.1 = [])
    ∧ (a.equalize = true →
        midwayEvents (get_time_series c a fs0).2.1 =
          (List.range a.bands.length).map
            (fun _ => Event.midwayCall [] a.outDir))
    ∧ (a.equalize = false →
        midwayEvents (get_time_series c a fs0).2.1 = [])
    ∧ ∀ p, (get_time_series c a fs0).1 p = fs0 p := by
  have hdl : downloadOf c a fs0 = (fs0, [], []) := by
    rw [downloadOf, h0]
    simp [downloadLoop]
  have hreg : registerPhase c a (workingW a) (workingH a) [] fs0 =
      (fs0, if a.register then
          (if a.debug then [Event.mkdirCall (nrDir a.outDir)] else []) ++
            [Event.registerCall [] [] true]
        else []) := by
    cases hr : a.register
    · simp [registerPhase_false _ _ _ _ _ _ hr]
    · cases hd : a.debug <;>
        simp [registerPhase_true _ _ _ _ _ _ hr, hd, regFS, snapFS,
          writeSeries, runList]
  have heq : equalizePhase c a [] fs0 =
      (fs0, if a.equalize then
          (if a.debug then [Event.mkdirCall (nmDir a.outDir)] else []) ++
            (List.range a.bands.length).map
              (fun _ => Event.midwayCall [] a.outDir)
        else []) := by
    cases he : a.equalize
    · simp [equalizePhase_false _ _ _ _ he]
    · cases hd : a.debug <;>
        simp [equalizePhase_true _ _ _ _ he, hd, eqSnapFS, runList,
          runList_midway_fs_nil, runList_midway_trace, bandGroup]
  have hgts : get_time_series c a fs0 =
      (fs0,
       (if a.register then
          (if a.debug then [Event.mkdirCall (nrDir a.outDir)] else []) ++
            [Event.registerCall [] [] true]
        else []) ++
         (if a.equalize then
            (if a.debug then [Event.mkdirCall (nmDir a.outDir)] else []) ++
              (List.range a.bands.length).map
                (fun _ => Event.midwayCall [] a.outDir)
          else []),
       []) := by
    rw [get_time_series, hdl]
    simp only []
    rw [hreg]
    simp only []
    rw [heq]
    simp
  rw [hgts]
  refine ⟨rfl, ?_, ?_, ?_, ?_, ?_, fun p => rfl⟩ <;>
    [skip; intro hr; intro hr; intro he; intro he] <;>
    cases hr2 : a.register <;> cases he2 : a.equalize <;>
      cases hd2 : a.debug <;>
      simp_all [acquireEvents, registerEvents, midwayEvents,
        List.filter_map, isAcquireEvent, isRegisterEvent, isMidwayEvent,
        Function.comp]

theorem inArea_nr (outDir : FPath) (s : String) :
    inArea outDir (nrDir outDir ++ [s]) = true := by
  simp [inArea, List.dropLast_concat]

theorem inArea_nm (outDir : FPath) (s : String) :
    inArea outDir (nmDir outDir ++ [s]) = true := by
  simp [inArea, List.dropLast_concat]

/-- C8: when `register` is true, the registration collaborator is invoked
exactly once per pipeline run, over the entire collected time series as
both the reference and the target collection with `all_pairwise` set to
true, and this single invocation happens after all acquisition calls and
before any in-place trim of a working artifact.  (The hypothesis `hoff`
states that no working artifact path lies inside a debug snapshot
directory, so a debug snapshot write is never an in-place trim.) -/
theorem registration_once_spec (c : Collab) (a : Args) (fs0 : FS)
    (hr : a.register = true)
    (hoff : ∀ b ∈ (get_time_series c a fs0).2.2.flatten,
      inArea a.outDir b = false) :
    registerEvents (get_time_series c a fs0).2.1 =
      [Event.registerCall (get_time_series c a fs0).2.2
        (get_time_series c a fs0).2.2 true]
    ∧ ∃ t1 t2, (get_time_series c a fs0).2.1 =
        t1 ++ Event.registerCall (get_time_series c a fs0).2.2
          (get_time_series c a fs0).2.2 true :: t2
        ∧ (∀ e ∈ t1, isTrimEvent e = false)
        ∧ (∀ e ∈ t2, isAcquireEvent e = false) := by
  have hcrops : (get_time_series c a fs0).2.2 = (downloadOf c a fs0).2.2 :=
    rfl
  rw [hcrops] at hoff ⊢
  constructor
  · rw [get_time_series_trace, registerEvents_append, registerEvents_append]
    have hdl : registerEvents (downloadOf c a fs0).2.1 = [] := by
      refine List.filter_eq_nil_iff.2 (fun e hee => ?_)
      rcases downloadLoop_events c a.bands a.lon a.lat (workingW a)
        (workingH a) a.outDir fs0 c.listImages e hee with h1 | h1 <;>
        (cases e <;> simp_all [isAcquireEvent, isRemoveEvent,
          isRegisterEvent])
    have heqz : registerEvents (equalizePhase c a (downloadOf c a fs0).2.2
        (registerPhase c a (workingW a) (workingH a)
          (downloadOf c a fs0).2.2 (downloadOf c a fs0).1).1).2 = [] := by
      refine List.filter_eq_nil_iff.2 (fun e hee => ?_)
      rcases equalizePhase_trace_mem c a _ _ e hee
        with rfl | ⟨b, _, rfl⟩ | ⟨i, _, rfl⟩ <;> simp [isRegisterEvent]
    rw [hdl, heqz, List.nil_append, List.append_nil,
      registerPhase_true _ _ _ _ _ _ hr, registerEvents_append]
    have hsnap : registerEvents (if a.debug then
        Event.mkdirCall (nrDir a.outDir) ::
          (runList (regSnapshotStep c (nrDir a.outDir) a.lon a.lat
            (workingW a) (workingH a)) (downloadOf c a fs0).1
            (downloadOf c a fs0).2.2.flatten).2
      else []) = [] := by
      cases hd : a.debug
      · rfl
      · simp only [if_true]
        refine List.filter_eq_nil_iff.2 (fun e hee => ?_)
        rcases List.mem_cons.1 hee with rfl | hee
        · simp [isRegisterEvent]
        · rw [runList_snap_trace] at hee
          rcases List.mem_map.1 hee with ⟨b, _, rfl⟩
          simp [isRegisterEvent]
    rw [hsnap, List.nil_append]
    rw [show registerEvents (Event.registerCall (downloadOf c a fs0).2.2
        (downloadOf c a fs0).2.2 true :: (runList (trimStep c a.lon a.lat
          (workingW a) (workingH a)) _ _).2) = _ from rfl]
    unfold registerEvents
    rw [List.filter_cons_of_pos (by rfl)]
    congr 1
    refine List.filter_eq_nil_iff.2 (fun e hee => ?_)
    rw [runList_trim_trace] at hee
    rcases List.mem_map.1 hee with ⟨b, _, rfl⟩
    simp [isRegisterEvent]
  · refine ⟨(downloadOf c a fs0).2.1 ++ (if a.debug then
        Event.mkdirCall (nrDir a.outDir) ::
          (runList (regSnapshotStep c (nrDir a.outDir) a.lon a.lat
            (workingW a) (workingH a)) (downloadOf c a fs0).1
            (downloadOf c a fs0).2.2.flatten).2
      else []),
      (runList (trimStep c a.lon a.lat (workingW a) (workingH a))
        (regFS c a (workingW a) (workingH a) (downloadOf c a fs0).2.2
          (downloadOf c a fs0).1) (downloadOf c a fs0).2.2.flatten).2 ++
        (equalizePhase c a (downloadOf c a fs0).2.2
          (registerPhase c a (workingW a) (workingH a)
            (downloadOf c a fs0).2.2 (downloadOf c a fs0).1).1).2,
      ?_, ?_, ?_⟩
    · rw [get_time_series_trace, registerPhase_true _ _ _ _ _ _ hr]
      simp
    · intro e hee
      rcases List.mem_append.1 hee with hee | hee
      · rcases downloadLoop_events c a.bands a.lon a.lat (workingW a)
          (workingH a) a.outDir fs0 c.listImages e hee with h1 | h1 <;>
          (cases e <;> simp_all [isAcquireEvent, isRemoveEvent,
            isTrimEvent])
      · cases hd : a.debug
        · rw [hd] at hee; cases hee
        · rw [hd] at hee
          simp only [if_true] at hee
          rcases List.mem_cons.1 hee with rfl | hee
          · rfl
          · rw [runList_snap_trace] at hee
            rcases List.mem_map.1 hee with ⟨b, hb, rfl⟩
            have hne : nrDir a.outDir ++ [b.getLastD ""] ≠ b := by
              intro hcontra
              have h1 := inArea_nr a.outDir (b.getLastD "")
              rw [hcontra, hoff b hb] at h1
              cases h1
            simp only [isTrimEvent, beq_eq_false_iff_ne, ne_eq]
            simpa [List.getLastD_eq_getLast?] using hne
    · intro e hee
      rcases List.mem_append.1 hee with hee | hee
      · rw [runList_trim_trace] at hee
        rcases List.mem_map.1 hee with ⟨b, _, rfl⟩
        rfl
      · rcases equalizePhase_trace_mem c a _ _ e hee
          with rfl | ⟨b, _, rfl⟩ | ⟨i, _, rfl⟩ <;> rfl


theorem count_fpath_eq_one (l : List FPath) (b : FPath) (hnd : l.Nodup)
    (hb : b ∈ l) : l.count b = 1 := by
  induction l with
  | nil => cases hb
  | cons x xs ih =>
    rw [List.count_cons]
    rcases List.nodup_cons.1 hnd with ⟨hx, hxs⟩
    by_cases hbx : b = x
    · subst hbx
      have h0 : xs.count b = 0 := List.count_eq_zero.2 hx
      simp [h0]
    · have hbm : b ∈ xs := by
        rcases List.mem_cons.1 hb with h1 | h1
        · exact absurd h1 hbx
        · exact h1
      rw [ih hxs hbm]
      simp [Ne.symm hbx]

theorem countTrimsAt_append (b : FPath) (A B : List Event) :
    countTrimsAt b (A ++ B) = countTrimsAt b A + countTrimsAt b B := by
  unfold countTrimsAt
  rw [List.filter_append, List.length_append]

theorem countTrimsAt_trim_trace (b : FPath) (lon lat : Int) (w h : Nat)
    (xs : List FPath) :
    countTrimsAt b (xs.map (fun x => Event.cropCall x x lon lat w h)) =
      xs.count b := by
  induction xs with
  | nil => rfl
  | cons x xs ih =>
    by_cases hx : x = b <;>
      simp_all [countTrimsAt, List.count_cons, List.filter_cons]

theorem countTrimsAt_nil_of_no_trim (b : FPath) (tr : List Event)
    (h : ∀ e ∈ tr, ∀ lon lat w h2, e ≠ Event.cropCall b b lon lat w h2) :
    countTrimsAt b tr = 0 := by
  unfold countTrimsAt
  rw [List.length_eq_zero]
  refine List.filter_eq_nil_iff.2 (fun e hee => ?_)
  intro hcontra
  cases e with
  | cropCall d s lon lat w2 h2 =>
    simp only [Bool.and_eq_true, beq_iff_eq] at hcontra
    exact h _ hee lon lat w2 h2 (by rw [hcontra.1, hcontra.2])
  | _ => simp at hcontra

/-- C3: when `register` is true, after the registration collaborator
returns, every artifact of every surviving crop set is trimmed in place
exactly once, back to a footprint of exactly the originally requested
width and height (the 100-meter margin fully removed), centered on the
same (lat, lon) point.  Hypotheses: the surviving artifact paths are
pairwise distinct and none lies inside a debug snapshot directory. -/
theorem trim_after_registration_spec (c : Collab) (a : Args) (fs0 : FS)
    (hr : a.register = true)
    (hnd : (get_time_series c a fs0).2.2.flatten.Nodup)
    (hoff : ∀ b ∈ (get_time_series c a fs0).2.2.flatten,
      inArea a.outDir b = false) :
    ∀ b ∈ (get_time_series c a fs0).2.2.flatten,
      countTrimsAt b (get_time_series c a fs0).2.1 = 1
      ∧ ∃ r0, (registerPhase c a (workingW a) (workingH a)
          (get_time_series c a fs0).2.2 (downloadOf c a fs0).1).1 b =
        some (cropGeorefImage c r0 a.lon a.lat a.w a.h) := by
  have hcrops : (get_time_series c a fs0).2.2 = (downloadOf c a fs0).2.2 :=
    rfl
  rw [hcrops] at hnd hoff ⊢
  have hw : workingW a - 100 = a.w := by
    simp [workingW, hr]
  have hh : workingH a - 100 = a.h := by
    simp [workingH, hr]
  intro b hb
  constructor
  · rw [get_time_series_trace, countTrimsAt_append, countTrimsAt_append]
    have hdl : countTrimsAt b (downloadOf c a fs0).2.1 = 0 := by
      refine countTrimsAt_nil_of_no_trim _ _ (fun e hee => ?_)
      rcases downloadLoop_events c a.bands a.lon a.lat (workingW a)
        (workingH a) a.outDir fs0 c.listImages e hee with h1 | h1 <;>
        (cases e <;> simp_all [isAcquireEvent, isRemoveEvent])
    have heqz : countTrimsAt b (equalizePhase c a (downloadOf c a fs0).2.2
        (registerPhase c a (workingW a) (workingH a)
          (downloadOf c a fs0).2.2 (downloadOf c a fs0).1).1).2 = 0 := by
      refine countTrimsAt_nil_of_no_trim _ _ (fun e hee => ?_)
      rcases equalizePhase_trace_mem c a _ _ e hee
        with rfl | ⟨x, _, rfl⟩ | ⟨i, _, rfl⟩ <;> intro lon lat w2 h2 <;>
        simp
    rw [hdl, heqz, registerPhase_true _ _ _ _ _ _ hr,
      countTrimsAt_append]
    have hsnap : countTrimsAt b (if a.debug then
        Event.mkdirCall (nrDir a.outDir) ::
          (runList (regSnapshotStep c (nrDir a.outDir) a.lon a.lat
            (workingW a) (workingH a)) (downloadOf c a fs0).1
            (downloadOf c a fs0).2.2.flatten).2
      else []) = 0 := by
      cases hd : a.debug
      · rfl
      · simp only [if_true]
        refine countTrimsAt_nil_of_no_trim _ _ (fun e hee => ?_)
        rcases List.mem_cons.1 hee with rfl | hee
        · intro lon lat w2 h2; simp
        · rw [runList_snap_trace] at hee
          rcases List.mem_map.1 hee with ⟨x, hx, rfl⟩
          intro lon lat w2 h2
          intro hcontra
          rw [Event.cropCall.injEq] at hcontra
          have h1 := inArea_nr a.outDir (x.getLastD "")
          rw [hcontra.1, hoff b hb] at h1
          cases h1
    rw [hsnap]
    have hmain : countTrimsAt b (Event.registerCall
        (downloadOf c a fs0).2.2 (downloadOf c a fs0).2.2 true ::
          (runList (trimStep c a.lon a.lat (workingW a) (workingH a))
            (regFS c a (workingW a) (workingH a) (downloadOf c a fs0).2.2
              (downloadOf c a fs0).1) (downloadOf c a fs0).2.2.flatten).2) =
        1 := by
      rw [show Event.registerCall (downloadOf c a fs0).2.2
          (downloadOf c a fs0).2.2 true ::
            (runList (trimStep c a.lon a.lat (workingW a) (workingH a))
              (regFS c a (workingW a) (workingH a)
                (downloadOf c a fs0).2.2 (downloadOf c a fs0).1)
              (downloadOf c a fs0).2.2.flatten).2 =
          [Event.registerCall (downloadOf c a fs0).2.2
            (downloadOf c a fs0).2.2 true] ++
            (runList (trimStep c a.lon a.lat (workingW a) (workingH a))
              (regFS c a (workingW a) (workingH a)
                (downloadOf c a fs0).2.2 (downloadOf c a fs0).1)
              (downloadOf c a fs0).2.2.flatten).2 from rfl,
        countTrimsAt_append, runList_trim_trace, countTrimsAt_trim_trace,
        count_fpath_eq_one _ _ hnd hb]
      rfl
    rw [hmain]
  · rw [registerPhase_true _ _ _ _ _ _ hr]
    have hex := runList_trim_mem c a.lon a.lat (workingW a) (workingH a)
      (regFS c a (workingW a) (workingH a) (downloadOf c a fs0).2.2
        (downloadOf c a fs0).1) (downloadOf c a fs0).2.2.flatten b hb
    simp only [hw, hh] at hex
    exact hex

theorem get_time_series_fs (c : Collab) (a : Args) (fs0 : FS) :
    (get_time_series c a fs0).1 =
      (equalizePhase c a (downloadOf c a fs0).2.2
        (registerPhase c a (workingW a) (workingH a)
          (downloadOf c a fs0).2.2 (downloadOf c a fs0).1).1).1 := rfl

theorem nr_ne_nm (outDir : FPath) (s t : String) :
    nrDir outDir ++ [s] ≠ nmDir outDir ++ [t] := by
  intro hcontra
  rw [nrDir, nmDir, List.append_assoc, List.append_assoc] at hcontra
  have h1 := List.append_cancel_left hcontra
  rw [List.cons_append, List.cons_append, List.cons.injEq] at h1
  exact absurd h1.1 (by decide)

/-- A concrete collaborator for the snapshot-content refutation: one
scene, one non-empty artifact, identity registration, sample-preserving
cropping. -/
def cC5 : Collab :=
  { listImages := [1]
  , acquire := fun _ _ _ _ w h _ => [(["b1"], ⟨0, 0, w, h, [1, 2, 3]⟩)]
  , registerFn := fun xss => xss
  , midwayFn := fun xs => xs
  , cropFn := fun r _ _ _ _ => r.samples }

/-- Flags for the snapshot-content refutation: register and debug on. -/
def aC5 : Args := ⟨0, 0, ["2"], 5000, 5000, true, false, ["out"], true⟩

/-- C5 counterexample: the pre-registration checkpoint file is not a
byte-for-byte copy of the artifact's on-disk bytes as they existed just
before registration — the source crops the margin away while copying
(line 83), so the checkpoint holds a 5000x5000 trim of the 5100x5100
working artifact, even though registration itself is the identity here. -/
theorem snapshot_content_cex :
    (get_time_series cC5 aC5 fsEmpty).1 ["out", "no_registration", "b1"] =
      some ⟨0, 0, 5000, 5000, [1, 2, 3]⟩
    ∧ (downloadOf cC5 aC5 fsEmpty).1 ["b1"] =
      some ⟨0, 0, 5100, 5100, [1, 2, 3]⟩
    ∧ (get_time_series cC5 aC5 fsEmpty).1 ["out", "no_registration", "b1"]
      ≠ (downloadOf cC5 aC5 fsEmpty).1 ["b1"] := by
  decide

/-- C5 amended: when debug, register and equalize are all true, the
pre-registration checkpoint contains, for every surviving artifact and
under its original filename, a copy of the artifact's pre-registration
content trimmed to the target footprint (the 100-meter margin is removed
while copying, so it is not a byte-for-byte copy of the working-footprint
bytes); the pre-equalization checkpoint does contain byte-for-byte copies
of the artifacts exactly as they existed just before equalization.
Hypotheses: no artifact path lies in a snapshot directory and artifact
filenames are pairwise distinct. -/
theorem snapshot_content_amended (c : Collab) (a : Args) (fs0 : FS)
    (hd : a.debug = true) (hr : a.register = true)
    (he : a.equalize = true)
    (hoff : ∀ b ∈ (get_time_series c a fs0).2.2.flatten,
      inArea a.outDir b = false)
    (hbn : ((get_time_series c a fs0).2.2.flatten.map
      (fun p => p.getLastD "")).Nodup) :
    ∀ b ∈ (get_time_series c a fs0).2.2.flatten,
      (get_time_series c a fs0).1 (nrDir a.outDir ++ [b.getLastD ""]) =
        some (cropGeorefImage c ((downloadOf c a fs0).1.readD b) a.lon
          a.lat a.w a.h)
      ∧ (get_time_series c a fs0).1 (nmDir a.outDir ++ [b.getLastD ""]) =
        some ((registerPhase c a (workingW a) (workingH a)
          (get_time_series c a fs0).2.2 (downloadOf c a fs0).1).1.readD
            b) := by
  have hcrops : (get_time_series c a fs0).2.2 = (downloadOf c a fs0).2.2 :=
    rfl
  rw [hcrops] at hoff hbn ⊢
  have hw : workingW a - 100 = a.w := by simp [workingW, hr]
  have hh : workingH a - 100 = a.h := by simp [workingH, hr]
  intro b hb
  have hWnr : ∀ x ∈ (downloadOf c a fs0).2.2.flatten,
      ∀ y ∈ (downloadOf c a fs0).2.2.flatten,
        x ≠ nrDir a.outDir ++ [y.getLastD ""] := by
    intro x hx y hy hcontra
    have h1 := inArea_nr a.outDir (y.getLastD "")
    rw [← hcontra, hoff x hx] at h1
    cases h1
  have hWnm : ∀ x ∈ (downloadOf c a fs0).2.2.flatten,
      ∀ y ∈ (downloadOf c a fs0).2.2.flatten,
        x ≠ nmDir a.outDir ++ [y.getLastD ""] := by
    intro x hx y hy hcontra
    have h1 := inArea_nm a.outDir (y.getLastD "")
    rw [← hcontra, hoff x hx] at h1
    cases h1
  have hnr_notmem : nrDir a.outDir ++ [b.getLastD ""] ∉
      (downloadOf c a fs0).2.2.flatten := by
    intro hmem
    have h1 := inArea_nr a.outDir (b.getLastD "")
    rw [hoff _ hmem] at h1
    cases h1
  have hnm_notmem : nmDir a.outDir ++ [b.getLastD ""] ∉
      (downloadOf c a fs0).2.2.flatten := by
    intro hmem
    have h1 := inArea_nm a.outDir (b.getLastD "")
    rw [hoff _ hmem] at h1
    cases h1
  have hsnapval : snapFS c a (workingW a) (workingH a)
      (downloadOf c a fs0).2.2 (downloadOf c a fs0).1
      (nrDir a.outDir ++ [b.getLastD ""]) =
      some (cropGeorefImage c ((downloadOf c a fs0).1.readD b) a.lon a.lat
        (workingW a - 100) (workingH a - 100)) := by
    rw [snapFS, hd, if_pos rfl]
    exact runList_snap_val c (nrDir a.outDir) a.lon a.lat (workingW a)
      (workingH a) (downloadOf c a fs0).1 (downloadOf c a fs0).2.2.flatten
      b hb hbn hWnr
  have hregval : regFS c a (workingW a) (workingH a)
      (downloadOf c a fs0).2.2 (downloadOf c a fs0).1
      (nrDir a.outDir ++ [b.getLastD ""]) =
      some (cropGeorefImage c ((downloadOf c a fs0).1.readD b) a.lon a.lat
        (workingW a - 100) (workingH a - 100)) := by
    rw [regFS, writeSeries_frame _ _ _ _ hnr_notmem]
    exact hsnapval
  have htrimval : (registerPhase c a (workingW a) (workingH a)
      (downloadOf c a fs0).2.2 (downloadOf c a fs0).1).1
      (nrDir a.outDir ++ [b.getLastD ""]) =
      some (cropGeorefImage c ((downloadOf c a fs0).1.readD b) a.lon a.lat
        (workingW a - 100) (workingH a - 100)) := by
    rw [registerPhase_true _ _ _ _ _ _ hr]
    rw [show ((runList (trimStep c a.lon a.lat (workingW a) (workingH a))
        (regFS c a (workingW a) (workingH a) (downloadOf c a fs0).2.2
          (downloadOf c a fs0).1) (downloadOf c a fs0).2.2.flatten).1,
        _).1 = (runList (trimStep c a.lon a.lat (workingW a) (workingH a))
        (regFS c a (workingW a) (workingH a) (downloadOf c a fs0).2.2
          (downloadOf c a fs0).1) (downloadOf c a fs0).2.2.flatten).1
      from rfl]
    rw [runList_trim_frame _ _ _ _ _ _ _ _ hnr_notmem]
    exact hregval
  constructor
  · rw [get_time_series_fs, equalizePhase_true _ _ _ _ he]
    rw [show ((runList (midwayStep c a.outDir (downloadOf c a fs0).2.2)
        (eqSnapFS a (downloadOf c a fs0).2.2
          (registerPhase c a (workingW a) (workingH a)
            (downloadOf c a fs0).2.2 (downloadOf c a fs0).1).1)
        (List.range a.bands.length)).1, _).1 =
        (runList (midwayStep c a.outDir (downloadOf c a fs0).2.2)
        (eqSnapFS a (downloadOf c a fs0).2.2
          (registerPhase c a (workingW a) (workingH a)
            (downloadOf c a fs0).2.2 (downloadOf c a fs0).1).1)
        (List.range a.bands.length)).1 from rfl]
    rw [runList_midway_frame _ _ _ _ _ _ hnr_notmem]
    rw [eqSnapFS, hd, if_pos rfl]
    rw [runList_copy_frame]
    · rw [htrimval, hw, hh]
    · intro x hx
      exact (nr_ne_nm a.outDir (b.getLastD "") (x.getLastD ""))
  · rw [get_time_series_fs, equalizePhase_true _ _ _ _ he]
    rw [show ((runList (midwayStep c a.outDir (downloadOf c a fs0).2.2)
        (eqSnapFS a (downloadOf c a fs0).2.2
          (registerPhase c a (workingW a) (workingH a)
            (downloadOf c a fs0).2.2 (downloadOf c a fs0).1).1)
        (List.range a.bands.length)).1, _).1 =
        (runList (midwayStep c a.outDir (downloadOf c a fs0).2.2)
        (eqSnapFS a (downloadOf c a fs0).2.2
          (registerPhase c a (workingW a) (workingH a)
            (downloadOf c a fs0).2.2 (downloadOf c a fs0).1).1)
        (List.range a.bands.length)).1 from rfl]
    rw [runList_midway_frame _ _ _ _ _ _ hnm_notmem]
    rw [eqSnapFS, hd, if_pos rfl]
    exact runList_copy_val (nmDir a.outDir) _ _ b hb hbn hWnm

theorem registerPhase_fs_true (c : Collab) (a : Args) (w h : Nat)
    (crops : List (List FPath)) (fs : FS) (hr : a.register = true) :
    (registerPhase c a w h crops fs).1 =
      (runList (trimStep c a.lon a.lat w h) (regFS c a w h crops fs)
        crops.flatten).1 := by
  rw [registerPhase_true _ _ _ _ _ _ hr]

theorem equalizePhase_fs_true (c : Collab) (a : Args)
    (crops : List (List FPath)) (fs : FS) (he : a.equalize = true) :
    (equalizePhase c a crops fs).1 =
      (runList (midwayStep c a.outDir crops) (eqSnapFS a crops fs)
        (List.range a.bands.length)).1 := by
  rw [equalizePhase_true _ _ _ _ he]

theorem snapLoop_offArea (c : Collab) (outDir : FPath) (lon lat : Int)
    (w h : Nat) (fs : FS) (xs : List FPath) (q : FPath)
    (hq : inArea outDir q = false) :
    (runList (regSnapshotStep c (nrDir outDir) lon lat w h) fs xs).1 q =
      fs q := by
  apply runList_snap_frame
  intro b _ hcontra
  have h1 := inArea_nr outDir (b.getLastD "")
  rw [← hcontra, hq] at h1
  cases h1

theorem copyLoop_offArea (outDir : FPath) (fs : FS) (xs : List FPath)
    (q : FPath) (hq : inArea outDir q = false) :
    (runList (copyStep (nmDir outDir)) fs xs).1 q = fs q := by
  apply runList_copy_frame
  intro b _ hcontra
  have h1 := inArea_nm outDir (b.getLastD "")
  rw [← hcontra, hq] at h1
  cases h1

theorem trimLoop_agree (c : Collab) (lon lat : Int) (w h : Nat)
    (outDir : FPath) (xs : List FPath) (f g : FS)
    (hxs : ∀ x ∈ xs, inArea outDir x = false)
    (hfg : agreeOff outDir f g) :
    agreeOff outDir (runList (trimStep c lon lat w h) f xs).1
      (runList (trimStep c lon lat w h) g xs).1 := by
  induction xs generalizing f g with
  | nil => exact hfg
  | cons x xs ih =>
    simp only [runList, trimStep]
    apply ih
    · exact fun y hy => hxs y (List.mem_cons_of_mem _ hy)
    · intro p hp
      by_cases hpx : p = x
      · subst hpx
        rw [FS.write_self, FS.write_self]
        rw [FS.readD_congr f g p (hfg p (hxs p (List.mem_cons_self _ _)))]
      · rw [FS.write_other _ _ _ _ hpx, FS.write_other _ _ _ _ hpx]
        exact hfg p hp

theorem midwayLoop_agree (c : Collab) (od : FPath) (outDir : FPath)
    (crops : List (List FPath)) (is : List Nat) (f g : FS)
    (hcr : ∀ x ∈ crops.flatten, inArea outDir x = false)
    (hfg : agreeOff outDir f g) :
    agreeOff outDir (runList (midwayStep c od crops) f is).1
      (runList (midwayStep c od crops) g is).1 := by
  induction is generalizing f g with
  | nil => exact hfg
  | cons i is ih =>
    simp only [runList, midwayStep]
    apply ih
    have hgrp : (bandGroup crops i).map f.readD =
        (bandGroup crops i).map g.readD := by
      refine List.map_congr_left (fun x hx => ?_)
      exact FS.readD_congr f g x
        (hfg x (hcr x (bandGroup_subset_flatten crops i x hx)))
    rw [hgrp]
    intro p hp
    exact writeGroup_congr f g _ _ p (hfg p hp)

theorem regFS_agree_debug (c : Collab) (a : Args) (w h : Nat)
    (crops : List (List FPath)) (fs : FS)
    (hcr : ∀ x ∈ crops.flatten, inArea a.outDir x = false) :
    agreeOff a.outDir
      (regFS c { a with debug := true } w h crops fs)
      (regFS c { a with debug := false } w h crops fs) := by
  have hsnapTF : agreeOff a.outDir
      (snapFS c { a with debug := true } w h crops fs)
      (snapFS c { a with debug := false } w h crops fs) :=
    fun q hq =>
      snapLoop_offArea c a.outDir a.lon a.lat w h fs crops.flatten q hq
  have hcont : crops.map (fun cr =>
      cr.map (snapFS c { a with debug := true } w h crops fs).readD) =
      crops.map (fun cr =>
        cr.map (snapFS c { a with debug := false } w h crops fs).readD) := by
    refine List.map_congr_left (fun cr hcr2 => ?_)
    refine List.map_congr_left (fun x hx => ?_)
    exact FS.readD_congr _ _ _
      (hsnapTF x (hcr x (List.mem_flatten.2 ⟨cr, hcr2, hx⟩)))
  intro p hp
  show writeSeries _ crops _ p = writeSeries _ crops _ p
  rw [hcont]
  exact writeSeries_congr _ _ _ _ p (hsnapTF p hp)

theorem registerPhase_agree_debug (c : Collab) (a : Args) (w h : Nat)
    (crops : List (List FPath)) (fs : FS)
    (hcr : ∀ x ∈ crops.flatten, inArea a.outDir x = false) :
    agreeOff a.outDir
      (registerPhase c { a with debug := true } w h crops fs).1
      (registerPhase c { a with debug := false } w h crops fs).1 := by
  by_cases hr : a.register = true
  · rw [registerPhase_fs_true _ _ _ _ _ _
        (show ({ a with debug := true } : Args).register = true from hr),
      registerPhase_fs_true _ _ _ _ _ _
        (show ({ a with debug := false } : Args).register = true from hr)]
    exact trimLoop_agree c a.lon a.lat w h a.outDir crops.flatten _ _ hcr
      (regFS_agree_debug c a w h crops fs hcr)
  · have hr2 : a.register = false := by
      cases hb : a.register
      · rfl
      · exact absurd hb hr
    rw [registerPhase_false _ _ _ _ _ _
        (show ({ a with debug := true } : Args).register = false from hr2),
      registerPhase_false _ _ _ _ _ _
        (show ({ a with debug := false } : Args).register = false from hr2)]
    exact fun p hp => rfl

theorem equalizePhase_agree_debug (c : Collab) (a : Args)
    (crops : List (List FPath)) (f g : FS)
    (hcr : ∀ x ∈ crops.flatten, inArea a.outDir x = false)
    (hfg : agreeOff a.outDir f g) :
    agreeOff a.outDir
      (equalizePhase c { a with debug := true } crops f).1
      (equalizePhase c { a with debug := false } crops g).1 := by
  by_cases he : a.equalize = true
  · rw [equalizePhase_fs_true _ _ _ _
        (show ({ a with debug := true } : Args).equalize = true from he),
      equalizePhase_fs_true _ _ _ _
        (show ({ a with debug := false } : Args).equalize = true from he)]
    refine midwayLoop_agree c _ a.outDir crops _ _ _ hcr ?_
    intro q hq
    exact (copyLoop_offArea a.outDir f crops.flatten q hq).trans (hfg q hq)
  · have he2 : a.equalize = false := by
      cases hb : a.equalize
      · rfl
      · exact absurd hb he
    rw [equalizePhase_false _ _ _ _
        (show ({ a with debug := true } : Args).equalize = false from he2),
      equalizePhase_false _ _ _ _
        (show ({ a with debug := false } : Args).equalize = false from he2)]
    exact hfg

/-- C7: two runs that differ only in the debug flag produce the same
surviving time series and identical final working artifacts at every path
outside the snapshot directories: snapshotting copies but never moves or
modifies the working artifacts, so debug snapshots never change the
inputs to, or the outcome of, registration or equalization.  Hypothesis:
no working artifact path lies inside a snapshot directory. -/
theorem debug_noninterference (c : Collab) (a : Args) (fs0 : FS)
    (hoff : ∀ b ∈ (get_time_series c { a with debug := false }
      fs0).2.2.flatten, inArea a.outDir b = false) :
    (get_time_series c { a with debug := true } fs0).2.2 =
      (get_time_series c { a with debug := false } fs0).2.2
    ∧ ∀ p, inArea a.outDir p = false →
      (get_time_series c { a with debug := true } fs0).1 p =
        (get_time_series c { a with debug := false } fs0).1 p := by
  refine ⟨rfl, ?_⟩
  have hcr : ∀ x ∈ (downloadOf c a fs0).2.2.flatten,
      inArea a.outDir x = false := hoff
  have h1 := registerPhase_agree_debug c a (workingW a) (workingH a)
    (downloadOf c a fs0).2.2 (downloadOf c a fs0).1 hcr
  have h2 := equalizePhase_agree_debug c a (downloadOf c a fs0).2.2 _ _
    hcr h1
  exact fun p hp => h2 p hp

/-! ## Concrete runs for witnesses -/

/-- A concrete collaborator: two scenes, the first yielding two non-empty
artifacts and the second an all-zero artifact. -/
def cW : Collab :=
  { listImages := [1, 2]
  , acquire := fun img _ _ _ w h _ =>
      if img = 1 then
        [(["b1"], ⟨0, 0, w, h, [1, 2, 3]⟩), (["b2"], ⟨0, 0, w, h, [4]⟩)]
      else [(["z1"], ⟨0, 0, w, h, [0]⟩)]
  , registerFn := fun xss => xss
  , midwayFn := fun xs => xs
  , cropFn := fun r _ _ _ _ => r.samples }

/-- Flags with register, equalize and debug all on. -/
def aW : Args := ⟨0, 0, ["2", "3"], 5000, 5000, true, true, ["out"], true⟩

/-- Flags with register off. -/
def aW4 : Args :=
  ⟨0, 0, ["2", "3"], 5000, 5000, false, true, ["out"], false⟩

/-- Flags with debug off. -/
def aW9 : Args := ⟨0, 0, ["2", "3"], 5000, 5000, true, true, ["out"], false⟩

/-! ## Witnesses -/

theorem scene_filter_spec_w :
    ((cW.acquire 1 ["2", "3"] 0 0 5100 5100 ["out"]).map Prod.fst ≠ []) ∧
    (sceneStep cW ["2", "3"] 0 0 5100 5100 ["out"] fsEmpty 1).2.2 =
      some ((cW.acquire 1 ["2", "3"] 0 0 5100 5100 ["out"]).map Prod.fst) :=
  ⟨by decide,
   (scene_filter_spec cW ["2", "3"] 0 0 5100 5100 ["out"] fsEmpty 1 []
     (by decide)).1.2 (by decide)⟩

theorem band_grouping_spec_w :
    (aW.equalize = true) ∧
    midwayEvents (get_time_series cW aW fsEmpty).2.1 =
      [Event.midwayCall [["b1"]] ["out"],
       Event.midwayCall [["b2"]] ["out"]] :=
  ⟨rfl, ((band_grouping_spec cW aW fsEmpty rfl).1).trans (by decide)⟩

theorem trim_after_registration_spec_w :
    (aW.register = true) ∧
    countTrimsAt ["b1"] (get_time_series cW aW fsEmpty).2.1 = 1 :=
  ⟨rfl,
   ((trim_after_registration_spec cW aW fsEmpty rfl (by decide)
     (by decide)) ["b1"] (by decide)).1⟩

theorem margin_policy_spec_w :
    (aW4.register = false) ∧
    isCropEvent (Event.acquireCall 2 ["2", "3"] 0 0 5000 5000 ["out"]) =
      false :=
  ⟨rfl, (margin_policy_spec cW aW4 fsEmpty).2 rfl _ (by decide)⟩

theorem snapshot_content_amended_w :
    (aW.debug = true) ∧
    (get_time_series cW aW fsEmpty).1
        (nrDir aW.outDir ++ [List.getLastD ["b1"] ""]) =
      some (cropGeorefImage cW ((downloadOf cW aW fsEmpty).1.readD ["b1"])
        aW.lon aW.lat aW.w aW.h) :=
  ⟨rfl,
   ((snapshot_content_amended cW aW fsEmpty rfl rfl rfl (by decide)
     (by decide)) ["b1"] (by decide)).1⟩

theorem empty_discovery_amended_w :
    (cEmpty.listImages = []) ∧
    (get_time_series cEmpty aC6 fsEmpty).2.2 = [] :=
  ⟨rfl, (empty_discovery_amended cEmpty aC6 fsEmpty rfl).1⟩

theorem debug_noninterference_w :
    (inArea aW.outDir ["b1"] = false) ∧
    (get_time_series cW { aW with debug := true } fsEmpty).1 ["b1"] =
      (get_time_series cW { aW with debug := false } fsEmpty).1 ["b1"] :=
  ⟨by decide,
   (debug_noninterference cW aW fsEmpty (by decide)).2 ["b1"] (by decide)⟩

theorem registration_once_spec_w :
    (aW.register = true) ∧
    registerEvents (get_time_series cW aW fsEmpty).2.1 =
      [Event.registerCall (get_time_series cW aW fsEmpty).2.2
        (get_time_series cW aW fsEmpty).2.2 true] :=
  ⟨rfl, (registration_once_spec cW aW fsEmpty rfl (by decide)).1⟩

theorem no_debug_no_snapshot_w :
    (aW9.debug = false) ∧
    isSnapshotEvent (Event.acquireCall 1 ["2", "3"] 0 0 5100 5100 ["out"])
      = false :=
  ⟨rfl, no_debug_no_snapshot cW aW9 fsEmpty rfl _ (by decide)⟩

theorem snapshot_dirs_created_w :
    (aW.debug = true) ∧
    Event.mkdirCall (nrDir ["out"]) ∈
      (get_time_series cEmpty aW fsEmpty).2.1 :=
  ⟨rfl, (snapshot_dirs_created cEmpty aW fsEmpty rfl).1 rfl⟩
